import Mathlib

/-!
Shallow embedding of the `inchworm` dimension model
(crates/inchworm-dimensions and the registry surface used by
crates/inchworm-py), together with proofs of the specification claims.

Rust strings are Lean `String`s, `Ratio<i32>` exponents are `ℚ`
(construction only compares an exponent with zero and stores it, so no
i32 overflow is reachable), `HashMap<String, _>` is an association list
with the key-unique insert mirroring `HashMap::insert` (which returns
the previous value), and `Arc`/`Weak` shared ownership is an explicit
heap of numbered cells: a `Weak` reference is the cell id, upgrading is
a heap lookup, and dropping the last strong owner removes the cell.
-/

namespace Inchworm

/-- Errors from `errors.rs` (`DimensionError`). The payload is the
formatted message string. -/
inductive DimensionError where
  | InvalidDefinition : String → DimensionError
  | InvalidComponent : String → DimensionError
deriving DecidableEq

/-- Errors from `error.rs` (`RegistryError`). -/
inductive RegistryError where
  | BaseDimensionAlreadyDefined : (dimension : String) → RegistryError
deriving DecidableEq

namespace base_dimension_def

/-- Rust `BaseDimensionDef` from `base_dimension_def.rs`: the validated
generation, constructed only through the fallible `new`. -/
structure BaseDimensionDef where
  name : String
  symbol : String
deriving DecidableEq

/-- Rust `BaseDimensionDef::new` from `base_dimension_def.rs`: rejects an
empty name, then an empty symbol (the symbol message interpolates the
name), otherwise stores both strings unchanged. -/
def BaseDimensionDef.new (name symbol : String) :
    Except DimensionError BaseDimensionDef :=
  if name = "" then
    .error (.InvalidDefinition "Base dimension name cannot be empty.")
  else if symbol = "" then
    .error (.InvalidDefinition
      ("Base dimension (" ++ name ++ ") symbol cannot be empty."))
  else
    .ok { name := name, symbol := symbol }

end base_dimension_def

namespace dimension_def

/-- Rust `BaseDimensionDef` from `dimension_def.rs`: the older, unvalidated
generation; this is the value type stored by `registry.rs`
(`use crate::dimension_def::BaseDimensionDef`). -/
structure BaseDimensionDef where
  name : String
  symbol : String
deriving DecidableEq

/-- Rust `BaseDimensionDef::new` from `dimension_def.rs`: total, performs no
validation at all. -/
def BaseDimensionDef.new (name symbol : String) : BaseDimensionDef :=
  { name := name, symbol := symbol }

end dimension_def

/-- Association-list lookup: the read side of the `HashMap` model. -/
def lookupKey {κ α : Type} [DecidableEq κ] (m : List (κ × α)) (k : κ) :
    Option α :=
  match m with
  | [] => none
  | (k2, v) :: rest => if k2 = k then some v else lookupKey rest k

/-- Replace the value stored under `k` wherever it occurs, leaving every
other binding alone: the write side of the `HashMap` model. -/
def replaceKey {κ α : Type} [DecidableEq κ] (m : List (κ × α)) (k : κ)
    (v : α) : List (κ × α) :=
  match m with
  | [] => []
  | (k2, w) :: rest =>
    if k2 = k then (k, v) :: replaceKey rest k v
    else (k2, w) :: replaceKey rest k v

/-- Rust `HashMap::insert` model: returns the previous value for the key (if
any) together with the updated map. -/
def hashMapInsert {κ α : Type} [DecidableEq κ] (m : List (κ × α)) (k : κ)
    (v : α) : Option α × List (κ × α) :=
  match lookupKey m k with
  | some old => (some old, replaceKey m k v)
  | none => (none, m ++ [(k, v)])

/-- Rust `DimensionRegistry` from `registry.rs`: a map from name to the
unvalidated `dimension_def::BaseDimensionDef`. -/
structure DimensionRegistry where
  base_dimensions : List (String × dimension_def.BaseDimensionDef)
deriving DecidableEq

namespace DimensionRegistry

/-- Rust `DimensionRegistry::new`. -/
def new : DimensionRegistry := ⟨[]⟩

/-- Rust `DimensionRegistry::get_base_dimension`. -/
def get_base_dimension (r : DimensionRegistry) (dimension : String) :
    Option dimension_def.BaseDimensionDef :=
  lookupKey r.base_dimensions dimension

/-- Rust `DimensionRegistry::has_base_dimension`. -/
def has_base_dimension (r : DimensionRegistry) (dimension : String) : Bool :=
  (r.get_base_dimension dimension).isSome

/-- Rust `DimensionRegistry::register_base_dimension`: the pair is the
`Result` together with the registry state after the call (`&mut self`
is untouched on the error path). -/
def register_base_dimension (r : DimensionRegistry) (dimension : String)
    (definition : dimension_def.BaseDimensionDef) :
    Except RegistryError Unit × DimensionRegistry :=
  if r.has_base_dimension dimension then
    (.error (.BaseDimensionAlreadyDefined dimension), r)
  else
    (.ok (), ⟨(hashMapInsert r.base_dimensions dimension definition).2⟩)

/-- Rust `DimensionRegistry::replace_base_dimension` from `registry.rs`: an
unconditional `HashMap::insert` whose returned previous value is
discarded. -/
def replace_base_dimension (r : DimensionRegistry) (dimension : String)
    (definition : dimension_def.BaseDimensionDef) : DimensionRegistry :=
  ⟨(hashMapInsert r.base_dimensions dimension definition).2⟩

/-- Modelled from the spec: the binding-facing registry
(`inchworm::dimensions::DimensionRegistry`, called by
`inchworm-py/src/dimensions.rs` `replace_base_dimension` but absent
from `src/`) exposes `replace` as an unconditional upsert that also
returns the prior value, i.e. the full result of `HashMap::insert`. -/
def replace_base_dimension_prev (r : DimensionRegistry) (dimension : String)
    (definition : dimension_def.BaseDimensionDef) :
    Option dimension_def.BaseDimensionDef × DimensionRegistry :=
  ((hashMapInsert r.base_dimensions dimension definition).1,
   ⟨(hashMapInsert r.base_dimensions dimension definition).2⟩)

end DimensionRegistry

/-- A `Weak<DimensionDef>` reference: the id of a heap cell. Upgrading
resolves the id against the current heap. -/
abbrev WeakRef : Type := Nat

/-- Rust `DimensionComponent` from `dimension_component.rs`: a weak (non-owning)
reference to a dimension together with a rational exponent. -/
structure DimensionComponent where
  dimension : WeakRef
  exponent : ℚ
deriving DecidableEq

/-- Rust `DerivedDimensionDef` from `derived_dimension_def.rs`: name, symbol and
the ordered component list. -/
structure DerivedDimensionDef where
  name : String
  symbol : String
  components : List DimensionComponent
deriving DecidableEq

/-- Modelled from the spec: the closed sum type `DimensionDef` over
base and derived definitions. It is referenced by `lib.rs` and
`dimension_component.rs` but absent from
`src/crates/inchworm-dimensions/src/dimension_def.rs` in this snapshot
(that file holds an older generation of the leaf types); the spec
describes it as wrapping exactly one of BaseDimensionDef or
DerivedDimensionDef with no additional validation. -/
inductive DimensionDef where
  | base : base_dimension_def.BaseDimensionDef → DimensionDef
  | derived : DerivedDimensionDef → DimensionDef
deriving DecidableEq

/-- Modelled from the spec: uniform `name` accessor of `DimensionDef`. -/
def DimensionDef.name : DimensionDef → String
  | .base b => b.name
  | .derived d => d.name

/-- Modelled from the spec: uniform `symbol` accessor of `DimensionDef`. -/
def DimensionDef.symbol : DimensionDef → String
  | .base b => b.symbol
  | .derived d => d.symbol

/-- Modelled from the spec: uniform `components` accessor of
`DimensionDef` (the empty sequence for the base variant). -/
def DimensionDef.components : DimensionDef → List DimensionComponent
  | .base _ => []
  | .derived d => d.components

/-- Modelled from the spec: the `is_base` discriminator. -/
def DimensionDef.is_base : DimensionDef → Bool
  | .base _ => true
  | .derived _ => false

/-- Modelled from the spec: the `is_derived` discriminator. -/
def DimensionDef.is_derived : DimensionDef → Bool
  | .base _ => false
  | .derived _ => true

/-- The heap of shared `Arc<DimensionDef>` cells: id against current
value. A cell disappears when its last strong owner is released. -/
abbrev Heap : Type := List (WeakRef × DimensionDef)

/-- Rust `Weak::upgrade`: resolve a weak reference against the current heap,
returning the strong handle if the cell is still alive. -/
def Heap.upgrade (h : Heap) (w : WeakRef) : Option DimensionDef :=
  lookupKey h w

/-- Releasing the last strong owner of the cell `w`: the cell is gone
from the heap, so every weak reference to it dangles from now on. -/
def Heap.drop (h : Heap) (w : WeakRef) : Heap :=
  h.filter (fun p => p.1 != w)

/-- Rust `DimensionComponent::new` from `dimension_component.rs`: rejects an
already-dangling reference first, then a zero exponent, otherwise
stores the reference and the exponent unchanged. -/
def DimensionComponent.new (h : Heap) (dimension : WeakRef) (exponent : ℚ) :
    Except DimensionError DimensionComponent :=
  if (h.upgrade dimension).isNone then
    .error (.InvalidComponent
      "Cannot create DimensionComponent when the dimension reference has been dropped.")
  else if exponent = 0 then
    .error (.InvalidComponent
      "Exponent cannot be zero. Consider referencing a dimensionless dimension with an exponent of 1.")
  else
    .ok { dimension := dimension, exponent := exponent }

/-- Rust `DimensionComponent::is_valid`: re-resolves the weak reference
against the current heap on every call. -/
def DimensionComponent.is_valid (c : DimensionComponent) (h : Heap) : Bool :=
  (h.upgrade c.dimension).isSome

/-- Rust `DimensionComponent::dimension` accessor (`dimension_def` in the
later generation): re-resolves the weak reference on every call and
returns the strong handle, or `none` once the target has been
dropped. -/
def DimensionComponent.dimension_def (c : DimensionComponent) (h : Heap) :
    Option DimensionDef :=
  h.upgrade c.dimension

/-- Rust `DerivedDimensionDef::new` from `derived_dimension_def.rs`: rejects,
in order, an empty name, an empty symbol, an empty component list and
any currently-invalid component, each with its own message; otherwise
stores the components in the supplied order. -/
def DerivedDimensionDef.new (h : Heap) (name symbol : String)
    (components : List DimensionComponent) :
    Except DimensionError DerivedDimensionDef :=
  if name = "" then
    .error (.InvalidDefinition "Derived dimension name cannot be empty.")
  else if symbol = "" then
    .error (.InvalidDefinition
      ("Derived dimension (" ++ name ++ ") symbol cannot be empty."))
  else if components.isEmpty then
    .error (.InvalidDefinition
      ("Derived dimension (" ++ name ++ ") must have at least one component."))
  else if components.any (fun c => !(c.is_valid h)) then
    .error (.InvalidDefinition
      ("Derived dimension (" ++ name
        ++ ") has invalid components. All component dimension references must be valid."))
  else
    .ok { name := name, symbol := symbol, components := components }

/-- The operations `registry.rs` offers for mutating a registry: the
alphabet of the append/replace-only state machine. -/
inductive RegistryOp where
  | register : String → dimension_def.BaseDimensionDef → RegistryOp
  | replace : String → dimension_def.BaseDimensionDef → RegistryOp
deriving DecidableEq

/-- The key an operation touches. -/
def RegistryOp.key : RegistryOp → String
  | .register k _ => k
  | .replace k _ => k

/-- The registry state after one operation (a failing `register` leaves
the state unchanged). -/
def RegistryOp.apply (op : RegistryOp) (r : DimensionRegistry) :
    DimensionRegistry :=
  match op with
  | .register k v => (r.register_base_dimension k v).2
  | .replace k v => r.replace_base_dimension k v

/-- The registry state after a sequence of operations. -/
def runRegistryOps (ops : List RegistryOp) (r : DimensionRegistry) :
    DimensionRegistry :=
  ops.foldl (fun r op => op.apply r) r

/-- Modelled from the spec: structural equality on `(name, symbol)` for
`BaseDimensionDef` — the `PartialEq`/`Eq` derive that the
`PyBaseDimensionDef` wrapper (`derive(Clone, PartialEq, Eq)`) and the
registry test assertions require of the core type, but which is not on
the struct in this snapshot of `base_dimension_def.rs`. -/
def base_dimension_def.BaseDimensionDef.beq
    (d1 d2 : base_dimension_def.BaseDimensionDef) : Bool :=
  d1.name = d2.name && d1.symbol = d2.symbol

/-- An executable string hash (a polynomial rolling hash), standing in
for the host hasher: the only property the claims rely on is that the
hash is a deterministic function of the string. -/
def strHash (s : String) : Nat :=
  s.data.foldl (fun h c => h * 131 + c.toNat) 7

/-- Modelled from the spec: the `Hash` derive feeds the fields `name`
then `symbol` to the hasher, so the hash is a deterministic function of
exactly the pair the equality compares. -/
def base_dimension_def.BaseDimensionDef.hashOf
    (d : base_dimension_def.BaseDimensionDef) : Nat :=
  strHash d.name * 131 + strHash d.symbol

theorem lookupKey_append {κ α : Type} [DecidableEq κ]
    (m m2 : List (κ × α)) (k : κ) :
    lookupKey (m ++ m2) k =
      match lookupKey m k with
      | some v => some v
      | none => lookupKey m2 k := by
  induction m with
  | nil => simp [lookupKey]
  | cons p rest ih =>
    obtain ⟨k2, v⟩ := p
    by_cases h : k2 = k <;> simp [lookupKey, h, ih]

theorem lookupKey_replaceKey {κ α : Type} [DecidableEq κ]
    (m : List (κ × α)) (k : κ) (v : α) :
    lookupKey (replaceKey m k v) k = (lookupKey m k).map (fun _ => v) := by
  induction m with
  | nil => simp [lookupKey, replaceKey]
  | cons p rest ih =>
    obtain ⟨k2, w⟩ := p
    by_cases h : k2 = k
    · subst h
      simp [lookupKey, replaceKey, ih]
    · simp [lookupKey, replaceKey, h, ih]

theorem lookupKey_replaceKey_ne {κ α : Type} [DecidableEq κ]
    (m : List (κ × α)) (k k2 : κ) (v : α) (h : k2 ≠ k) :
    lookupKey (replaceKey m k v) k2 = lookupKey m k2 := by
  induction m with
  | nil => simp [lookupKey, replaceKey]
  | cons p rest ih =>
    obtain ⟨k3, w⟩ := p
    by_cases h3 : k3 = k
    · subst h3
      simp [lookupKey, replaceKey, Ne.symm h, ih]
    · by_cases h2 : k3 = k2
      · subst h2
        simp [lookupKey, replaceKey, h3, ih]
      · simp [lookupKey, replaceKey, h3, h2, ih]

theorem lookupKey_hashMapInsert_self {κ α : Type} [DecidableEq κ]
    (m : List (κ × α)) (k : κ) (v : α) :
    lookupKey (hashMapInsert m k v).2 k = some v := by
  cases h : lookupKey m k with
  | none => simp [hashMapInsert, h, lookupKey_append, lookupKey]
  | some old => simp [hashMapInsert, h, lookupKey_replaceKey]

theorem lookupKey_hashMapInsert_ne {κ α : Type} [DecidableEq κ]
    (m : List (κ × α)) (k k2 : κ) (v : α) (hne : k2 ≠ k) :
    lookupKey (hashMapInsert m k v).2 k2 = lookupKey m k2 := by
  cases h : lookupKey m k with
  | none =>
    simp only [hashMapInsert, h, lookupKey_append]
    cases h2 : lookupKey m k2 with
    | none => simp [lookupKey, Ne.symm hne]
    | some w => simp
  | some old => simp [hashMapInsert, h, lookupKey_replaceKey_ne _ _ _ _ hne]

theorem fst_hashMapInsert {κ α : Type} [DecidableEq κ]
    (m : List (κ × α)) (k : κ) (v : α) :
    (hashMapInsert m k v).1 = lookupKey m k := by
  cases h : lookupKey m k <;> simp [hashMapInsert, h]

theorem lookupKey_filter_self {α : Type} (m : List (Nat × α)) (w : Nat) :
    lookupKey (m.filter (fun p => p.1 != w)) w = none := by
  induction m with
  | nil => rfl
  | cons p rest ih =>
    obtain ⟨k, v⟩ := p
    by_cases h : k = w
    · subst h
      simpa using ih
    · simp [List.filter_cons, h, lookupKey, ih]

theorem register_ok_inversion (r r1 : DimensionRegistry) (k : String)
    (v : dimension_def.BaseDimensionDef)
    (hreg : r.register_base_dimension k v = (.ok (), r1)) :
    r.has_base_dimension k = false ∧
    r1 = ⟨(hashMapInsert r.base_dimensions k v).2⟩ := by
  by_cases hh : r.has_base_dimension k
  · simp [DimensionRegistry.register_base_dimension, hh] at hreg
  · simp only [DimensionRegistry.register_base_dimension, hh, if_neg,
      Bool.false_eq_true, if_false, Prod.mk.injEq] at hreg
    exact ⟨by simpa using hh, hreg.2.symm⟩

theorem get_base_dimension_insert_self
    (m : List (String × dimension_def.BaseDimensionDef)) (k : String)
    (v : dimension_def.BaseDimensionDef) :
    (DimensionRegistry.mk (hashMapInsert m k v).2).get_base_dimension k =
      some v := by
  simp [DimensionRegistry.get_base_dimension, lookupKey_hashMapInsert_self]

/-- C1: `replace` on the registry is an unconditional upsert that
returns the prior value: after a successful `register k v1`,
`replace k v2` returns `some v1` and a subsequent `get k` returns `v2`;
`replace` on an absent key returns `none` and inserts the supplied
value. -/
theorem replace_upsert_returns_prior :
    (∀ (r r1 : DimensionRegistry) (k : String)
        (v1 v2 : dimension_def.BaseDimensionDef),
      r.register_base_dimension k v1 = (.ok (), r1) →
        (r1.replace_base_dimension_prev k v2).1 = some v1 ∧
        (r1.replace_base_dimension_prev k v2).2.get_base_dimension k =
          some v2) ∧
    (∀ (r : DimensionRegistry) (k : String)
        (v : dimension_def.BaseDimensionDef),
      r.has_base_dimension k = false →
        (r.replace_base_dimension_prev k v).1 = none ∧
        (r.replace_base_dimension_prev k v).2.get_base_dimension k =
          some v) := by
  constructor
  · intro r r1 k v1 v2 hreg
    obtain ⟨hh, hr1⟩ := register_ok_inversion r r1 k v1 hreg
    subst hr1
    constructor
    · simp [DimensionRegistry.replace_base_dimension_prev, fst_hashMapInsert,
        lookupKey_hashMapInsert_self]
    · simp [DimensionRegistry.replace_base_dimension_prev,
        DimensionRegistry.get_base_dimension, lookupKey_hashMapInsert_self]
  · intro r k v hh
    have hget : lookupKey r.base_dimensions k = none := by
      cases hcase : lookupKey r.base_dimensions k with
      | none => rfl
      | some w =>
        exfalso
        simp [DimensionRegistry.has_base_dimension,
          DimensionRegistry.get_base_dimension, hcase] at hh
    constructor
    · simp [DimensionRegistry.replace_base_dimension_prev, fst_hashMapInsert,
        hget]
    · simp [DimensionRegistry.replace_base_dimension_prev,
        DimensionRegistry.get_base_dimension, lookupKey_hashMapInsert_self]

theorem replace_upsert_returns_prior_witness :
    (((DimensionRegistry.mk
        [("length", ⟨"length", "L"⟩)]).replace_base_dimension_prev
          "length" ⟨"length", "Len"⟩).1 = some ⟨"length", "L"⟩ ∧
      ((DimensionRegistry.mk
        [("length", ⟨"length", "L"⟩)]).replace_base_dimension_prev
          "length" ⟨"length", "Len"⟩).2.get_base_dimension "length" =
        some ⟨"length", "Len"⟩) ∧
    ((DimensionRegistry.new.replace_base_dimension_prev
        "mass" ⟨"mass", "M"⟩).1 = none ∧
      (DimensionRegistry.new.replace_base_dimension_prev
        "mass" ⟨"mass", "M"⟩).2.get_base_dimension "mass" =
        some ⟨"mass", "M"⟩) :=
  ⟨replace_upsert_returns_prior.1 DimensionRegistry.new _ "length"
      ⟨"length", "L"⟩ ⟨"length", "Len"⟩ rfl,
    replace_upsert_returns_prior.2 DimensionRegistry.new "mass"
      ⟨"mass", "M"⟩ (by decide)⟩

/-- C3: `register` inserts only when the key is absent and otherwise
fails atomically: after a successful `register k v1`, a second
`register k v2` returns `BaseDimensionAlreadyDefined k`, leaves the
registry unchanged, and `get k` still returns `v1`. -/
theorem register_duplicate_fails_atomically :
    ∀ (r r1 : DimensionRegistry) (k : String)
        (v1 v2 : dimension_def.BaseDimensionDef),
      r.register_base_dimension k v1 = (.ok (), r1) →
        r1.register_base_dimension k v2 =
          (.error (.BaseDimensionAlreadyDefined k), r1) ∧
        r1.get_base_dimension k = some v1 := by
  intro r r1 k v1 v2 hreg
  obtain ⟨hh, hr1⟩ := register_ok_inversion r r1 k v1 hreg
  subst hr1
  have hget := get_base_dimension_insert_self r.base_dimensions k v1
  have hhas : (DimensionRegistry.mk
      (hashMapInsert r.base_dimensions k v1).2).has_base_dimension k =
      true := by
    simp [DimensionRegistry.has_base_dimension, hget]
  exact ⟨by simp [DimensionRegistry.register_base_dimension, hhas], hget⟩

theorem register_duplicate_fails_atomically_witness :
    (DimensionRegistry.mk
        [("length", ⟨"length", "L"⟩)]).register_base_dimension "length"
          ⟨"length", "Len"⟩ =
      (.error (.BaseDimensionAlreadyDefined "length"),
        DimensionRegistry.mk [("length", ⟨"length", "L"⟩)]) ∧
    (DimensionRegistry.mk
        [("length", ⟨"length", "L"⟩)]).get_base_dimension "length" =
      some ⟨"length", "L"⟩ :=
  register_duplicate_fails_atomically DimensionRegistry.new _ "length"
    ⟨"length", "L"⟩ ⟨"length", "Len"⟩ rfl

theorem has_apply_mono (op : RegistryOp) (r : DimensionRegistry)
    (k : String) (h : r.has_base_dimension k = true) :
    (op.apply r).has_base_dimension k = true := by
  cases op with
  | register k2 v =>
    by_cases hh : r.has_base_dimension k2
    · simpa [RegistryOp.apply, DimensionRegistry.register_base_dimension, hh]
        using h
    · by_cases hk : k = k2
      · subst hk
        simp [hh] at h
      · have hb : (lookupKey r.base_dimensions k2).isSome = false := by
          simpa [DimensionRegistry.has_base_dimension,
            DimensionRegistry.get_base_dimension] using hh
        simp only [RegistryOp.apply,
          DimensionRegistry.register_base_dimension,
          DimensionRegistry.has_base_dimension,
          DimensionRegistry.get_base_dimension, hb, Bool.false_eq_true,
          if_false] at h ⊢
        rwa [lookupKey_hashMapInsert_ne _ _ _ _ hk]
  | replace k2 v =>
    by_cases hk : k = k2
    · subst hk
      simp [RegistryOp.apply, DimensionRegistry.replace_base_dimension,
        DimensionRegistry.has_base_dimension,
        DimensionRegistry.get_base_dimension, lookupKey_hashMapInsert_self]
    · simp only [RegistryOp.apply, DimensionRegistry.replace_base_dimension,
        DimensionRegistry.has_base_dimension,
        DimensionRegistry.get_base_dimension] at h ⊢
      rwa [lookupKey_hashMapInsert_ne _ _ _ _ hk]

theorem get_apply_ne (op : RegistryOp) (r : DimensionRegistry)
    (k2 : String) (h : k2 ≠ op.key) :
    (op.apply r).get_base_dimension k2 = r.get_base_dimension k2 := by
  cases op with
  | register k v =>
    by_cases hh : r.has_base_dimension k
    · simp [RegistryOp.apply, DimensionRegistry.register_base_dimension, hh]
    · have hb : (lookupKey r.base_dimensions k).isSome = false := by
        simpa [DimensionRegistry.has_base_dimension,
          DimensionRegistry.get_base_dimension] using hh
      simp only [RegistryOp.key] at h
      simp only [RegistryOp.apply, DimensionRegistry.register_base_dimension,
        DimensionRegistry.has_base_dimension,
        DimensionRegistry.get_base_dimension, hb, Bool.false_eq_true,
        if_false]
      exact lookupKey_hashMapInsert_ne _ _ _ _ h
  | replace k v =>
    simp only [RegistryOp.key] at h
    simp only [RegistryOp.apply, DimensionRegistry.replace_base_dimension,
      DimensionRegistry.get_base_dimension]
    exact lookupKey_hashMapInsert_ne _ _ _ _ h

/-- C9: the registry is append/replace-only: over any sequence of
`register`/`replace` operations, once a key is present it stays present,
and a single `register` or `replace` on key `k` leaves the mapping of
every other key unchanged (a failing `register` changes nothing at
all). -/
theorem registry_append_replace_only :
    (∀ (ops : List RegistryOp) (r : DimensionRegistry) (k : String),
      r.has_base_dimension k = true →
        (runRegistryOps ops r).has_base_dimension k = true) ∧
    (∀ (op : RegistryOp) (r : DimensionRegistry) (k2 : String),
      k2 ≠ op.key →
        (op.apply r).get_base_dimension k2 = r.get_base_dimension k2) := by
  constructor
  · intro ops
    induction ops with
    | nil =>
      intro r k h
      exact h
    | cons op rest ih =>
      intro r k h
      exact ih _ _ (has_apply_mono op r k h)
  · exact get_apply_ne

theorem registry_append_replace_only_witness :
    (runRegistryOps
        [.replace "time" ⟨"time", "T"⟩, .register "mass" ⟨"mass", "M"⟩]
        (DimensionRegistry.mk
          [("length", ⟨"length", "L"⟩)])).has_base_dimension "length" =
      true ∧
    ((RegistryOp.register "mass" ⟨"mass", "M"⟩).apply
        (DimensionRegistry.mk
          [("length", ⟨"length", "L"⟩)])).get_base_dimension "length" =
      (DimensionRegistry.mk
        [("length", ⟨"length", "L"⟩)]).get_base_dimension "length" :=
  ⟨registry_append_replace_only.1
      [.replace "time" ⟨"time", "T"⟩, .register "mass" ⟨"mass", "M"⟩]
      (DimensionRegistry.mk [("length", ⟨"length", "L"⟩)]) "length" rfl,
    registry_append_replace_only.2 (.register "mass" ⟨"mass", "M"⟩)
      (DimensionRegistry.mk [("length", ⟨"length", "L"⟩)]) "length"
      (by decide)⟩

/-- C10: the registry never inspects the key or the definition beyond
key uniqueness: for every key (the empty string included) and every
definition (ones with empty name or symbol included), `register`
succeeds whenever the key is absent, `replace` always succeeds, and a
subsequent `get` returns exactly the stored definition. -/
theorem registry_no_validation :
    (∀ (r : DimensionRegistry) (k : String)
        (v : dimension_def.BaseDimensionDef),
      r.has_base_dimension k = false →
        (r.register_base_dimension k v).1 = .ok () ∧
        (r.register_base_dimension k v).2.get_base_dimension k = some v) ∧
    (∀ (r : DimensionRegistry) (k : String)
        (v : dimension_def.BaseDimensionDef),
      (r.replace_base_dimension k v).get_base_dimension k = some v) := by
  constructor
  · intro r k v hh
    constructor
    · simp [DimensionRegistry.register_base_dimension, hh]
    · simp [DimensionRegistry.register_base_dimension, hh,
        DimensionRegistry.get_base_dimension, lookupKey_hashMapInsert_self]
  · intro r k v
    simp [DimensionRegistry.replace_base_dimension,
      DimensionRegistry.get_base_dimension, lookupKey_hashMapInsert_self]

theorem registry_no_validation_witness :
    ((DimensionRegistry.new.register_base_dimension ""
        (dimension_def.BaseDimensionDef.new "" "")).1 = .ok () ∧
      (DimensionRegistry.new.register_base_dimension ""
        (dimension_def.BaseDimensionDef.new "" "")).2.get_base_dimension "" =
        some (dimension_def.BaseDimensionDef.new "" "")) ∧
    (DimensionRegistry.new.replace_base_dimension ""
        (dimension_def.BaseDimensionDef.new "" "")).get_base_dimension "" =
      some (dimension_def.BaseDimensionDef.new "" "") :=
  ⟨registry_no_validation.1 DimensionRegistry.new ""
      (dimension_def.BaseDimensionDef.new "" "") rfl,
    registry_no_validation.2 DimensionRegistry.new ""
      (dimension_def.BaseDimensionDef.new "" "")⟩

/-- C2: `DimensionDef` is a closed sum type wrapping exactly one of
`BaseDimensionDef` or `DerivedDimensionDef`, with no further validation
and a uniform read surface: `name`, `symbol`, `components` (the empty
sequence for the base variant) and the complementary
`is_base`/`is_derived` discriminators. -/
theorem dimension_def_uniform_surface :
    (∀ b : base_dimension_def.BaseDimensionDef,
      (DimensionDef.base b).name = b.name ∧
      (DimensionDef.base b).symbol = b.symbol ∧
      (DimensionDef.base b).components = [] ∧
      (DimensionDef.base b).is_base = true ∧
      (DimensionDef.base b).is_derived = false) ∧
    (∀ d : DerivedDimensionDef,
      (DimensionDef.derived d).name = d.name ∧
      (DimensionDef.derived d).symbol = d.symbol ∧
      (DimensionDef.derived d).components = d.components ∧
      (DimensionDef.derived d).is_base = false ∧
      (DimensionDef.derived d).is_derived = true) ∧
    (∀ x : DimensionDef,
      ((∃ b, x = DimensionDef.base b) ∨
        (∃ d, x = DimensionDef.derived d)) ∧
      x.is_base = !x.is_derived) := by
  refine ⟨fun b => ⟨rfl, rfl, rfl, rfl, rfl⟩,
    fun d => ⟨rfl, rfl, rfl, rfl, rfl⟩, fun x => ?_⟩
  cases x with
  | base b => exact ⟨.inl ⟨b, rfl⟩, rfl⟩
  | derived d => exact ⟨.inr ⟨d, rfl⟩, rfl⟩

/-- C4: `BaseDimensionDef::new` fails exactly when the name or the
symbol is empty; the empty-name and empty-symbol cases produce their
respective `InvalidDefinition` errors (the symbol message embedding the
dimension name), and on success the accessors return exactly the
supplied strings. -/
theorem base_dimension_def_new_spec :
    ∀ name symbol : String,
      ((base_dimension_def.BaseDimensionDef.new name symbol).isOk = true ↔
        name ≠ "" ∧ symbol ≠ "") ∧
      (name = "" →
        base_dimension_def.BaseDimensionDef.new name symbol =
          .error (.InvalidDefinition
            "Base dimension name cannot be empty.")) ∧
      (name ≠ "" → symbol = "" →
        base_dimension_def.BaseDimensionDef.new name symbol =
          .error (.InvalidDefinition
            ("Base dimension (" ++ name ++ ") symbol cannot be empty."))) ∧
      (∀ d, base_dimension_def.BaseDimensionDef.new name symbol = .ok d →
        d.name = name ∧ d.symbol = symbol) := by
  intro name symbol
  by_cases hn : name = ""
  · subst hn
    refine ⟨?_, fun _ => rfl, fun h _ => absurd rfl h, fun d hd => ?_⟩
    · simp [base_dimension_def.BaseDimensionDef.new, Except.isOk,
        Except.toBool]
    · simp [base_dimension_def.BaseDimensionDef.new] at hd
  · by_cases hs : symbol = ""
    · subst hs
      have hnew : base_dimension_def.BaseDimensionDef.new name "" =
          .error (.InvalidDefinition
            ("Base dimension (" ++ name ++ ") symbol cannot be empty.")) := by
        simp [base_dimension_def.BaseDimensionDef.new, hn]
      refine ⟨?_, fun h => absurd h hn, fun _ _ => hnew, fun d hd => ?_⟩
      · simp [hnew, Except.isOk, Except.toBool]
      · rw [hnew] at hd
        cases hd
    · have hnew : base_dimension_def.BaseDimensionDef.new name symbol =
          .ok ⟨name, symbol⟩ := by
        simp [base_dimension_def.BaseDimensionDef.new, hn, hs]
      refine ⟨?_, fun h => absurd h hn, fun _ h => absurd h hs,
        fun d hd => ?_⟩
      · simp [hnew, Except.isOk, Except.toBool, hn, hs]
      · rw [hnew] at hd
        cases hd
        exact ⟨rfl, rfl⟩

theorem base_dimension_def_new_spec_witness :
    base_dimension_def.BaseDimensionDef.new "Length" "" =
      .error (.InvalidDefinition
        ("Base dimension (" ++ "Length" ++ ") symbol cannot be empty.")) ∧
    ((base_dimension_def.BaseDimensionDef.new "Time" "τ").isOk = true ↔
      "Time" ≠ "" ∧ "τ" ≠ "") ∧
    ((⟨"Time", "τ"⟩ : base_dimension_def.BaseDimensionDef).name = "Time" ∧
      (⟨"Time", "τ"⟩ : base_dimension_def.BaseDimensionDef).symbol = "τ") :=
  ⟨(base_dimension_def_new_spec "Length" "").2.2.1 (by decide) rfl,
    (base_dimension_def_new_spec "Time" "τ").1,
    (base_dimension_def_new_spec "Time" "τ").2.2.2 ⟨"Time", "τ"⟩ rfl⟩

theorem dimension_component_new_ok (h : Heap) (w : WeakRef) (e : ℚ)
    (c : DimensionComponent)
    (hnew : DimensionComponent.new h w e = .ok c) : c = ⟨w, e⟩ := by
  by_cases hup : (h.upgrade w).isNone
  · simp [DimensionComponent.new, hup] at hnew
  · by_cases hz : e = 0
    · simp [DimensionComponent.new, hup, hz] at hnew
    · simp only [DimensionComponent.new, hup, Bool.false_eq_true, if_false,
        hz, if_neg, Except.ok.injEq] at hnew
      exact hnew.symm

/-- C5: `DimensionComponent::new` fails exactly when the reference is
already dangling or the exponent is zero; the liveness check runs first
(a dangling reference with a zero exponent reports the
dangling-reference error), and on success the component stores the
reference and the exponent unchanged, `exponent` returning exactly the
supplied rational. -/
theorem dimension_component_new_spec :
    ∀ (h : Heap) (w : WeakRef) (e : ℚ),
      (h.upgrade w = none →
        DimensionComponent.new h w e =
          .error (.InvalidComponent
            "Cannot create DimensionComponent when the dimension reference has been dropped.")) ∧
      ((h.upgrade w).isSome = true → e = 0 →
        DimensionComponent.new h w e =
          .error (.InvalidComponent
            "Exponent cannot be zero. Consider referencing a dimensionless dimension with an exponent of 1.")) ∧
      ((DimensionComponent.new h w e).isOk = true ↔
        (h.upgrade w).isSome = true ∧ e ≠ 0) ∧
      (∀ c, DimensionComponent.new h w e = .ok c →
        c.dimension = w ∧ c.exponent = e) := by
  intro h w e
  refine ⟨?_, ?_, ?_, ?_⟩
  · intro hup
    simp [DimensionComponent.new, hup]
  · intro hup hz
    have hnone : (h.upgrade w).isNone = false := by
      simp [Option.isNone_eq_false_iff] at hup ⊢
      exact hup
    simp [DimensionComponent.new, hnone, hz]
  · by_cases hup : (h.upgrade w).isNone
    · simp [DimensionComponent.new, hup, Except.isOk, Except.toBool,
        Option.isNone_iff_eq_none.mp hup]
    · by_cases hz : e = 0
      · simp [DimensionComponent.new, hup, hz, Except.isOk, Except.toBool]
      · simp only [DimensionComponent.new, hup, Bool.false_eq_true,
          if_false, hz, if_neg, Except.isOk, Except.toBool]
        simp only [Bool.not_eq_true, Option.isNone_eq_false_iff] at hup
        simp [hup, hz]
  · exact fun c hc => by
      have := dimension_component_new_ok h w e c hc
      subst this
      exact ⟨rfl, rfl⟩

theorem dimension_component_new_spec_witness :
    DimensionComponent.new [] 0 0 =
      .error (.InvalidComponent
        "Cannot create DimensionComponent when the dimension reference has been dropped.") ∧
    ((DimensionComponent.new
        [(0, DimensionDef.base ⟨"Length", "L"⟩)] 0 (mkRat 3 2)).isOk =
          true ↔
      ((Heap.upgrade [(0, DimensionDef.base ⟨"Length", "L"⟩)]
          0).isSome = true ∧ (mkRat 3 2 : ℚ) ≠ 0)) ∧
    ((⟨0, mkRat 3 2⟩ : DimensionComponent).dimension = 0 ∧
      (⟨0, mkRat 3 2⟩ : DimensionComponent).exponent = mkRat 3 2) :=
  ⟨(dimension_component_new_spec [] 0 0).1 rfl,
    (dimension_component_new_spec
      [(0, DimensionDef.base ⟨"Length", "L"⟩)] 0 (mkRat 3 2)).2.2.1,
    (dimension_component_new_spec
      [(0, DimensionDef.base ⟨"Length", "L"⟩)] 0 (mkRat 3 2)).2.2.2
      ⟨0, mkRat 3 2⟩ rfl⟩

/-- C6: releasing the last strong owner of the referenced dimension
flips `is_valid` from true to false and the resolved dimension from
`some` to `none`, while the component value itself (its stored
reference and exponent) is untouched; both accessors re-resolve the
weak reference against the current heap at every call. -/
theorem component_liveness_flips_on_drop :
    ∀ (h : Heap) (w : WeakRef) (e : ℚ) (c : DimensionComponent)
        (d : DimensionDef),
      DimensionComponent.new h w e = .ok c →
      h.upgrade w = some d →
        c.dimension = w ∧ c.exponent = e ∧
        c.is_valid h = true ∧ c.dimension_def h = some d ∧
        c.is_valid (h.drop w) = false ∧
        c.dimension_def (h.drop w) = none := by
  intro h w e c d hnew hup
  have hc := dimension_component_new_ok h w e c hnew
  subst hc
  have hdrop : (h.drop w).upgrade w = none := lookupKey_filter_self h w
  exact ⟨rfl, rfl,
    by simp [DimensionComponent.is_valid, hup],
    by simp [DimensionComponent.dimension_def, hup],
    by simp [DimensionComponent.is_valid, hdrop],
    by simp [DimensionComponent.dimension_def, hdrop]⟩

theorem component_liveness_flips_on_drop_witness :
    (⟨0, 1⟩ : DimensionComponent).dimension = 0 ∧
    (⟨0, 1⟩ : DimensionComponent).exponent = 1 ∧
    DimensionComponent.is_valid ⟨0, 1⟩
      [(0, DimensionDef.base ⟨"Length", "L"⟩)] = true ∧
    DimensionComponent.dimension_def ⟨0, 1⟩
      [(0, DimensionDef.base ⟨"Length", "L"⟩)] =
      some (DimensionDef.base ⟨"Length", "L"⟩) ∧
    DimensionComponent.is_valid ⟨0, 1⟩
      (Heap.drop [(0, DimensionDef.base ⟨"Length", "L"⟩)] 0) = false ∧
    DimensionComponent.dimension_def ⟨0, 1⟩
      (Heap.drop [(0, DimensionDef.base ⟨"Length", "L"⟩)] 0) = none :=
  component_liveness_flips_on_drop
    [(0, DimensionDef.base ⟨"Length", "L"⟩)] 0 1 ⟨0, 1⟩
    (DimensionDef.base ⟨"Length", "L"⟩) rfl rfl

theorem derived_new_ok_inversion (h : Heap) (name symbol : String)
    (components : List DimensionComponent) (d : DerivedDimensionDef)
    (hnew : DerivedDimensionDef.new h name symbol components = .ok d) :
    d = ⟨name, symbol, components⟩ := by
  by_cases hn : name = ""
  · simp [DerivedDimensionDef.new, hn] at hnew
  · by_cases hs : symbol = ""
    · simp [DerivedDimensionDef.new, hn, hs] at hnew
    · by_cases hc : components.isEmpty
      · simp [DerivedDimensionDef.new, hn, hs, hc] at hnew
      · by_cases hv : components.any (fun c => !(c.is_valid h))
        · simp [DerivedDimensionDef.new, hn, hs, hc, hv] at hnew
        · simp only [DerivedDimensionDef.new, hn, hs, hc, hv,
            Bool.false_eq_true, if_false, if_neg, Except.ok.injEq] at hnew
          exact hnew.symm

theorem derived_new_eq_ok (h : Heap) (name symbol : String)
    (components : List DimensionComponent) (hn : name ≠ "")
    (hs : symbol ≠ "") (hc : components ≠ [])
    (hv : ∀ c ∈ components, c.is_valid h = true) :
    DerivedDimensionDef.new h name symbol components =
      .ok ⟨name, symbol, components⟩ := by
  have hce : components.isEmpty = false := by
    cases components with
    | nil => exact absurd rfl hc
    | cons a t => rfl
  have hva : components.any (fun c => !(c.is_valid h)) = false := by
    rw [List.any_eq_false]
    intro c hcmem
    simp [hv c hcmem]
  simp [DerivedDimensionDef.new, hn, hs, hce, hva]

/-- C7: `DerivedDimensionDef::new` fails exactly when the name is empty,
the symbol is empty, the component list is empty, or some component is
currently invalid — each case producing its own `InvalidDefinition`
error, the four messages pairwise distinct — and on success the
components are stored in exactly the supplied order. -/
theorem derived_dimension_def_new_spec :
    ∀ (h : Heap) (name symbol : String)
        (components : List DimensionComponent),
      (name = "" →
        DerivedDimensionDef.new h name symbol components =
          .error (.InvalidDefinition
            "Derived dimension name cannot be empty.")) ∧
      (name ≠ "" → symbol = "" →
        DerivedDimensionDef.new h name symbol components =
          .error (.InvalidDefinition
            ("Derived dimension (" ++ name
              ++ ") symbol cannot be empty."))) ∧
      (name ≠ "" → symbol ≠ "" → components = [] →
        DerivedDimensionDef.new h name symbol components =
          .error (.InvalidDefinition
            ("Derived dimension (" ++ name
              ++ ") must have at least one component."))) ∧
      (name ≠ "" → symbol ≠ "" → components ≠ [] →
        (∃ c ∈ components, c.is_valid h = false) →
        DerivedDimensionDef.new h name symbol components =
          .error (.InvalidDefinition
            ("Derived dimension (" ++ name
              ++ ") has invalid components. All component dimension references must be valid."))) ∧
      ((DerivedDimensionDef.new h name symbol components).isOk = true ↔
        name ≠ "" ∧ symbol ≠ "" ∧ components ≠ [] ∧
          ∀ c ∈ components, c.is_valid h = true) ∧
      (∀ d, DerivedDimensionDef.new h name symbol components = .ok d →
        d.name = name ∧ d.symbol = symbol ∧ d.components = components) ∧
      (("Derived dimension name cannot be empty." : String) ≠
          "Derived dimension (" ++ name ++ ") symbol cannot be empty." ∧
        ("Derived dimension name cannot be empty." : String) ≠
          "Derived dimension (" ++ name
            ++ ") must have at least one component." ∧
        ("Derived dimension name cannot be empty." : String) ≠
          "Derived dimension (" ++ name
            ++ ") has invalid components. All component dimension references must be valid." ∧
        ("Derived dimension (" ++ name ++ ") symbol cannot be empty."
            : String) ≠
          "Derived dimension (" ++ name
            ++ ") must have at least one component." ∧
        ("Derived dimension (" ++ name ++ ") symbol cannot be empty."
            : String) ≠
          "Derived dimension (" ++ name
            ++ ") has invalid components. All component dimension references must be valid." ∧
        ("Derived dimension (" ++ name
            ++ ") must have at least one component." : String) ≠
          "Derived dimension (" ++ name
            ++ ") has invalid components. All component dimension references must be valid.") := by
  intro h name symbol components
  have hpre : ("Derived dimension (" : String).length = 19 := by decide
  have hm1 : ("Derived dimension name cannot be empty." : String).length =
      39 := by decide
  have hm2 : (") symbol cannot be empty." : String).length = 25 := by decide
  have hm3 : (") must have at least one component." : String).length =
      35 := by decide
  have hm4 : (") has invalid components. All component dimension references must be valid."
      : String).length = 75 := by decide
  refine ⟨?_, ?_, ?_, ?_, ?_, ?_, ?_⟩
  · intro hn
    simp [DerivedDimensionDef.new, hn]
  · intro hn hs
    simp [DerivedDimensionDef.new, hn, hs]
  · intro hn hs hc
    subst hc
    simp [DerivedDimensionDef.new, hn, hs]
  · intro hn hs hc hex
    have hce : components.isEmpty = false := by
      cases components with
      | nil => exact absurd rfl hc
      | cons a t => rfl
    have hva : components.any (fun c => !(c.is_valid h)) = true := by
      rw [List.any_eq_true]
      obtain ⟨c, hcmem, hcval⟩ := hex
      exact ⟨c, hcmem, by simp [hcval]⟩
    simp [DerivedDimensionDef.new, hn, hs, hce, hva]
  · constructor
    · intro hok
      by_cases hn : name = ""
      · simp [DerivedDimensionDef.new, hn, Except.isOk, Except.toBool]
          at hok
      · by_cases hs : symbol = ""
        · simp [DerivedDimensionDef.new, hn, hs, Except.isOk,
            Except.toBool] at hok
        · by_cases hce : components.isEmpty
          · simp [DerivedDimensionDef.new, hn, hs, hce, Except.isOk,
              Except.toBool] at hok
          · by_cases hva : components.any (fun c => !(c.is_valid h))
            · simp [DerivedDimensionDef.new, hn, hs, hce, hva,
                Except.isOk, Except.toBool] at hok
            · refine ⟨hn, hs, ?_, ?_⟩
              · intro hceq
                subst hceq
                exact hce rfl
              · intro c hcmem
                have hva2 : components.any (fun c => !(c.is_valid h)) =
                    false := by
                  cases hvb : components.any (fun c => !(c.is_valid h)) with
                  | false => rfl
                  | true => exact absurd hvb hva
                have := List.any_eq_false.mp hva2 c hcmem
                simpa using this
    · rintro ⟨hn, hs, hc, hv⟩
      rw [derived_new_eq_ok h name symbol components hn hs hc hv]
      rfl
  · intro d hd
    have := derived_new_ok_inversion h name symbol components d hd
    subst this
    exact ⟨rfl, rfl, rfl⟩
  · refine ⟨?_, ?_, ?_, ?_, ?_, ?_⟩ <;>
      (intro hEq
       have h0 := congrArg String.length hEq
       simp only [String.length_append, hpre, hm1, hm2, hm3, hm4] at h0
       omega)

theorem derived_dimension_def_new_spec_witness :
    DerivedDimensionDef.new
        [(0, DimensionDef.base ⟨"Length", "L"⟩),
          (1, DimensionDef.base ⟨"Time", "T"⟩)]
        "Velocity" "v" [⟨0, 1⟩, ⟨1, -1⟩] =
      .ok ⟨"Velocity", "v", [⟨0, 1⟩, ⟨1, -1⟩]⟩ ∧
    ((⟨"Velocity", "v", [⟨0, 1⟩, ⟨1, -1⟩]⟩ :
        DerivedDimensionDef).components = [⟨0, 1⟩, ⟨1, -1⟩] ∧
      (⟨"Velocity", "v", [⟨0, 1⟩, ⟨1, -1⟩]⟩ :
        DerivedDimensionDef).components.length = 2) ∧
    DerivedDimensionDef.new [] "Dimensionless" "1" [] =
      .error (.InvalidDefinition
        ("Derived dimension (" ++ "Dimensionless"
          ++ ") must have at least one component.")) :=
  ⟨derived_new_eq_ok
      [(0, DimensionDef.base ⟨"Length", "L"⟩),
        (1, DimensionDef.base ⟨"Time", "T"⟩)]
      "Velocity" "v" [⟨0, 1⟩, ⟨1, -1⟩] (by decide) (by decide)
      (by decide) (by decide),
    ⟨((derived_dimension_def_new_spec
        [(0, DimensionDef.base ⟨"Length", "L"⟩),
          (1, DimensionDef.base ⟨"Time", "T"⟩)]
        "Velocity" "v" [⟨0, 1⟩, ⟨1, -1⟩]).2.2.2.2.2.1
        ⟨"Velocity", "v", [⟨0, 1⟩, ⟨1, -1⟩]⟩ rfl).2.2, rfl⟩,
    (derived_dimension_def_new_spec [] "Dimensionless" "1" []).2.2.1
      (by decide) (by decide) rfl⟩

/-- C8: two `BaseDimensionDef` values are equal exactly when their names
are equal and their symbols are equal — which coincides with full value
equality, so the type can serve as a map value and be compared in
assertions — and equal values hash identically. -/
theorem base_dimension_def_eq_hash_spec :
    ∀ d1 d2 : base_dimension_def.BaseDimensionDef,
      (d1.beq d2 = true ↔ d1.name = d2.name ∧ d1.symbol = d2.symbol) ∧
      (d1.beq d2 = true ↔ d1 = d2) ∧
      (d1.beq d2 = true → d1.hashOf = d2.hashOf) := by
  intro d1 d2
  obtain ⟨n1, s1⟩ := d1
  obtain ⟨n2, s2⟩ := d2
  refine ⟨?_, ?_, ?_⟩
  · simp [base_dimension_def.BaseDimensionDef.beq]
  · simp [base_dimension_def.BaseDimensionDef.beq,
      base_dimension_def.BaseDimensionDef.mk.injEq]
  · intro hb
    simp [base_dimension_def.BaseDimensionDef.beq] at hb
    obtain ⟨hn, hs⟩ := hb
    subst hn
    subst hs
    rfl

theorem base_dimension_def_eq_hash_spec_witness :
    (⟨"Length", "L"⟩ :
        base_dimension_def.BaseDimensionDef).hashOf =
      (⟨"Length", "L"⟩ : base_dimension_def.BaseDimensionDef).hashOf ∧
    ((⟨"Length", "L"⟩ : base_dimension_def.BaseDimensionDef).beq
        ⟨"Length", "L"⟩ = true ↔
      (⟨"Length", "L"⟩ : base_dimension_def.BaseDimensionDef) =
        ⟨"Length", "L"⟩) :=
  ⟨(base_dimension_def_eq_hash_spec ⟨"Length", "L"⟩ ⟨"Length", "L"⟩).2.2
      (by decide),
    (base_dimension_def_eq_hash_spec ⟨"Length", "L"⟩ ⟨"Length", "L"⟩).2.1⟩

end Inchworm
